import Mathlib

/-!
Verification of the caching core of the Nether Chronicles repository
(LCYLYM/kongbu): request-fingerprint key derivation, in-flight request
deduplication, the two-tier (localStorage L1 / HTTP server L2) cache, and
the remote cache server.

The definitions below are shallow embeddings of the TypeScript/JavaScript
source files, chiefly src/services/cacheService.ts, the GameService variant
using CacheService (src/unnamed/part_001) and the Node cache server
(src/unnamed/part_003). JavaScript objects and Maps are modelled as
insertion-ordered association lists, JSON values as the inductive type
JVal, and the event-loop concurrency of promises as explicit state passing
over a registry state.
-/

namespace Kongbu

/-- JSON values as materialized by JSON.parse: null, booleans, numbers
(integral, which covers every payload in this repository), strings, arrays
and objects. Objects keep their key insertion order, as JavaScript objects
do for non-index string keys such as hex digests. -/
inductive JVal where
  | null : JVal
  | bool : Bool → JVal
  | num : Int → JVal
  | str : String → JVal
  | arr : List JVal → JVal
  | obj : List (String × JVal) → JVal

/-- Truthiness of a JSON-parsed value under JavaScript coercion: null,
false, 0 and the empty string are falsy; every array and object is truthy.
This is the coercion applied by tests such as `if (local)` in
CacheService.getStory and `store[itemKey] || null` in getFromLocalStorage. -/
def isTruthy : JVal → Bool
  | .null => false
  | .bool b => b
  | .num n => decide (n ≠ 0)
  | .str s => decide (s ≠ "")
  | .arr _ => true
  | .obj _ => true

/-- Lookup in a JavaScript object or Map modelled as an insertion-ordered
association list: the value bound to key k, if any. -/
def jsLookup {α : Type} (m : List (String × α)) (k : String) : Option α :=
  match m with
  | [] => none
  | p :: rest => if p.1 = k then some p.2 else jsLookup rest k

/-- Membership test, as JavaScript `key in obj` or `map.has(key)`. -/
def hasKey {α : Type} (m : List (String × α)) (k : String) : Bool :=
  (jsLookup m k).isSome

/-- Deletion, as JavaScript `delete obj[k]` or `map.delete(k)`: removes the
binding for k, keeping the order of the remaining bindings. -/
def eraseKey {α : Type} (m : List (String × α)) (k : String) : List (String × α) :=
  m.filter (fun p => decide (p.1 ≠ k))

/-- Assignment `obj[k] = v` on a JavaScript object: an existing key keeps
its position and gets the new value; a new key is appended at the end
(insertion order). -/
def jsUpsert {α : Type} (m : List (String × α)) (k : String) (v : α) : List (String × α) :=
  if hasKey m k then m.map (fun p => if p.1 = k then (p.1, v) else p)
  else m ++ [(k, v)]

/-- Keys of an association list, in insertion order. -/
def keysOf {α : Type} (m : List (String × α)) : List String :=
  m.map Prod.fst

theorem jsLookup_append_right {α : Type} (m₁ m₂ : List (String × α)) (k : String)
    (h : jsLookup m₁ k = none) : jsLookup (m₁ ++ m₂) k = jsLookup m₂ k := by
  induction m₁ with
  | nil => simp
  | cons p rest ih =>
    by_cases hk : p.1 = k
    · simp [jsLookup, hk] at h
    · simp only [jsLookup, hk, if_false, List.cons_append] at h ⊢
      exact ih h

theorem jsLookup_eraseKey_self {α : Type} (m : List (String × α)) (k : String) :
    jsLookup (eraseKey m k) k = none := by
  induction m with
  | nil => rfl
  | cons p rest ih =>
    by_cases hk : p.1 = k
    · simpa [eraseKey, hk] using ih
    · simpa [eraseKey, jsLookup, hk] using ih

theorem jsLookup_eraseKey_ne {α : Type} (m : List (String × α)) (k k' : String)
    (h : k' ≠ k) : jsLookup (eraseKey m k) k' = jsLookup m k' := by
  induction m with
  | nil => rfl
  | cons p rest ih =>
    by_cases hk : p.1 = k
    · have h1 : eraseKey (p :: rest) k = eraseKey rest k := by
        simp [eraseKey, List.filter_cons, hk]
      have h2 : jsLookup (p :: rest) k' = jsLookup rest k' := by
        have hpk' : ¬ p.1 = k' := fun hcon => h (hcon ▸ hk)
        simp [jsLookup, hpk']
      rw [h1, h2]; exact ih
    · have h1 : eraseKey (p :: rest) k = p :: eraseKey rest k := by
        simp [eraseKey, List.filter_cons, hk]
      rw [h1]
      by_cases hk' : p.1 = k'
      · simp [jsLookup, hk']
      · simp only [jsLookup, hk', if_false]
        exact ih

theorem jsLookup_none_iff_not_mem {α : Type} (m : List (String × α)) (k : String) :
    jsLookup m k = none ↔ k ∉ keysOf m := by
  induction m with
  | nil => simp [jsLookup, keysOf]
  | cons p rest ih =>
    by_cases hk : p.1 = k
    · simp [jsLookup, keysOf, hk]
    · simp [jsLookup, keysOf, hk, ih, Ne.symm hk]

theorem jsLookup_isSome_iff_mem {α : Type} (m : List (String × α)) (k : String) :
    (jsLookup m k).isSome = true ↔ k ∈ keysOf m := by
  rw [← not_iff_not, ← jsLookup_none_iff_not_mem]
  cases jsLookup m k <;> simp

theorem jsLookup_jsUpsert_self {α : Type} (m : List (String × α)) (k : String) (v : α) :
    jsLookup (jsUpsert m k v) k = some v := by
  unfold jsUpsert
  by_cases h : hasKey m k = true
  · simp only [h, if_true]
    unfold hasKey at h
    induction m with
    | nil => simp [jsLookup] at h
    | cons p rest ih =>
      by_cases hk : p.1 = k
      · simp [jsLookup, hk]
      · simp only [jsLookup, hk, if_false] at h
        simpa [jsLookup, hk] using ih h
  · simp only [h]
    simp only [Bool.not_eq_true] at h
    unfold hasKey at h
    have hnone : jsLookup m k = none := by
      cases hl : jsLookup m k
      · rfl
      · rw [hl] at h; simp at h
    rw [if_neg (by simp [h])]
    rw [jsLookup_append_right m _ k hnone]
    simp [jsLookup]

theorem eraseKey_length_le {α : Type} (m : List (String × α)) (k : String) :
    (eraseKey m k).length ≤ m.length :=
  List.length_filter_le _ m

theorem jsUpsert_length_le {α : Type} (m : List (String × α)) (k : String) (v : α) :
    (jsUpsert m k v).length ≤ m.length + 1 := by
  unfold jsUpsert
  by_cases h : hasKey m k = true
  · simp only [h, if_true, List.length_map]
    omega
  · simp [h]

/-- One chat turn, from src/types.ts ChatHistoryItem: a role (the strings
"user" or "model" in the source union type) and a text. -/
structure ChatHistoryItem where
  role : String
  text : String

/-- Structured narrative payload, from src/types.ts StoryResponse. The
mood union type is modelled as a string; inventoryUpdates is optional. -/
structure StoryResponse where
  narrative : String
  choices : List String
  visualPrompt : String
  isGameOver : Bool
  flashReveal : Bool
  inventoryUpdates : Option (List String × List String)
  mood : String

/-- JSON encoding of a StoryResponse as it is stored in the cache tiers
(the source passes the object itself to JSON.stringify; field order follows
the interface declaration). The result is always a JSON object, hence
truthy. -/
def encodeStory (r : StoryResponse) : JVal :=
  .obj ([("narrative", .str r.narrative),
         ("choices", .arr (r.choices.map .str)),
         ("visualPrompt", .str r.visualPrompt),
         ("isGameOver", .bool r.isGameOver),
         ("flashReveal", .bool r.flashReveal)] ++
        (match r.inventoryUpdates with
         | some u => [("inventoryUpdates",
             .obj [("add", .arr (u.1.map .str)), ("remove", .arr (u.2.map .str))])]
         | none => []) ++
        [("mood", .str r.mood)])

theorem isTruthy_encodeStory (r : StoryResponse) : isTruthy (encodeStory r) = true := rfl

/-- JSON string-literal escaping as performed by JSON.stringify on the
characters relevant here (quote and backslash; control characters do not
occur in the payloads this development evaluates). -/
def jsonEscape (s : String) : String :=
  String.join (s.toList.map fun c =>
    if c = '"' then "\\\"" else if c = '\\' then "\\\\" else String.singleton c)

/-- JSON serialization of a string literal. -/
def serializeJStr (s : String) : String :=
  "\"" ++ jsonEscape s ++ "\""

/-- JSON serialization of an array of strings, as JSON.stringify renders
the sorted inventory in CacheService.generateKey. -/
def serializeStringList (xs : List String) : String :=
  "[" ++ String.intercalate "," (xs.map serializeJStr) ++ "]"

/-- JSON serialization of one cleaned history item, the object
with role and text fields built in CacheService.generateKey. -/
def serializeHistItem (it : ChatHistoryItem) : String :=
  "\x7b\"role\":" ++ serializeJStr it.role ++ ",\"text\":" ++ serializeJStr it.text ++ "\x7d"

/-- The payload string JSON.stringify produces in CacheService.generateKey
(src/services/cacheService.ts lines 27-31): an object with fields h (the
cleaned history), c (the choice) and i (the sorted inventory). -/
def serializePayload (cleanHist : List ChatHistoryItem) (choice : String)
    (sortedInv : List String) : String :=
  "\x7b\"h\":[" ++ String.intercalate "," (cleanHist.map serializeHistItem) ++
  "],\"c\":" ++ serializeJStr choice ++
  ",\"i\":" ++ serializeStringList sortedInv ++ "\x7d"

/-- CacheService.generateKey (src/services/cacheService.ts lines 20-34):
copies and sorts the inventory, keeps only role and text of each history
item, serializes the payload deterministically and hashes it. The SHA-256
digest is abstracted as a parameter hash, since every claim about this
function concerns only which payload strings reach it. Sorting uses the
linear order on strings (the source sorts by UTF-16 code units; any fixed
total order yields the same canonicalization guarantee). -/
def generateKey (hash : String → String) (history : List ChatHistoryItem)
    (choice : String) (inventory : List String) : String :=
  let sortedInventory := inventory.insertionSort (· ≤ ·)
  let cleanHistory := history.map fun h => ChatHistoryItem.mk h.role h.text
  hash (serializePayload cleanHistory choice sortedInventory)

/-- MAX_LOCAL_ITEMS from src/services/cacheService.ts line 6. -/
def MAX_LOCAL_ITEMS : Nat := 50

/-- Eviction step of CacheService.saveToLocalStorage (lines 128-133): if
the store already holds MAX_LOCAL_ITEMS keys or more, the binding of the
first key in insertion order (Object.keys(store)[0]) is deleted. -/
def evictIfFull (store : List (String × JVal)) : List (String × JVal) :=
  if MAX_LOCAL_ITEMS ≤ store.length then
    match store.head? with
    | some p => eraseKey store p.1
    | none => store
  else store

/-- CacheService.saveToLocalStorage (src/services/cacheService.ts lines
125-142) acting on the parsed content of one localStorage store (the text
or the image store). The localStorage.setItem write may throw (quota
exceeded); whether a write of a given store content succeeds is the
environment parameter canWrite. On failure the catch clause removes the
whole store (localStorage.removeItem), leaving it empty; the write is
dropped and no retry is attempted. -/
def saveToLocalStorage (canWrite : List (String × JVal) → Bool)
    (store : List (String × JVal)) (k : String) (v : JVal) : List (String × JVal) :=
  let attempt := jsUpsert (evictIfFull store) k v
  if canWrite attempt then attempt else []

/-- Modelled from the spec: the CapacityError recovery policy of section 7
("recovered by clearing the affected local store and retrying the write
once; if the retry also fails, the write is silently dropped"). The source
(CacheService.saveToLocalStorage, and GameService.saveCachedImage in
src/services/gameService.ts whose own comment announces "clear cache and
try again once") only clears and never retries; this definition follows
the words of the spec, for comparison with saveToLocalStorage. -/
def saveToLocalStorageSpecRetry (canWrite : List (String × JVal) → Bool)
    (store : List (String × JVal)) (k : String) (v : JVal) : List (String × JVal) :=
  let attempt := jsUpsert (evictIfFull store) k v
  if canWrite attempt then attempt
  else
    let retry := jsUpsert (evictIfFull []) k v
    if canWrite retry then retry else []

/-- CacheService.getFromLocalStorage (src/services/cacheService.ts lines
118-123) on the parsed store content: the expression
store[itemKey] || null, i.e. the stored value if present and truthy,
otherwise null. -/
def getFromLocalStorage (store : List (String × JVal)) (k : String) : Option JVal :=
  match jsLookup store k with
  | some v => if isTruthy v then some v else none
  | none => none

/-- Outcome of one fetch to the L2 cache server as observed by the client:
the transport may fail (fetch rejects), the response may be non-ok (for
example the 404 miss), or an ok response carries a parsed JSON object
body. -/
inductive FetchOutcome where
  | netFail : FetchOutcome
  | notOk : FetchOutcome
  | ok : List (String × JVal) → FetchOutcome

/-- CacheService.fetchFromServer (src/services/cacheService.ts lines
144-154): a non-ok response yields null; otherwise json.data || null. The
transport failure case propagates as an exception to the caller (who
catches it in getStory/getImage). -/
def fetchFromServer (l2 : FetchOutcome) : Except String (Option JVal) :=
  match l2 with
  | .netFail => .error "fetch failed"
  | .notOk => .ok none
  | .ok body =>
    .ok (match jsLookup body "data" with
         | some d => if isTruthy d then some d else none
         | none => none)

/-- CacheService.getStory (src/services/cacheService.ts lines 42-67):
L1 first; on miss, if the shared tier is enabled, try L2 inside try/catch
(a transport failure is swallowed and treated as a miss); an L2 hit is
written back to L1 (read-through) before being returned. Returns the
result together with the new L1 store content; the Except layer records
whether an exception escapes getStory (none ever does: every branch is
ok). -/
def getStory (canWrite : List (String × JVal) → Bool) (isEnabled : Bool)
    (l2 : FetchOutcome) (store : List (String × JVal)) (k : String) :
    Except String (Option JVal × List (String × JVal)) :=
  match getFromLocalStorage store k with
  | some v => .ok (some v, store)
  | none =>
    if isEnabled then
      match fetchFromServer l2 with
      | .error _ => .ok (none, store)
      | .ok none => .ok (none, store)
      | .ok (some remote) => .ok (some remote, saveToLocalStorage canWrite store k remote)
    else .ok (none, store)

/-- CacheService.setStory (src/services/cacheService.ts lines 96-104):
write L1 synchronously; if the shared tier is enabled, fire the L2 POST
and swallow any failure with .catch. Returns the new L1 store content and
whether an L2 write was attempted; the parameter recording whether the
background POST fails does not influence the returned state, and no
branch produces an error. -/
def setStory (canWrite : List (String × JVal) → Bool) (isEnabled : Bool)
    (l2PostFails : Bool) (store : List (String × JVal)) (k : String)
    (v : StoryResponse) : Except String (List (String × JVal) × Bool) :=
  let newStore := saveToLocalStorage canWrite store k (encodeStory v)
  let _ := l2PostFails
  .ok (newStore, isEnabled)

/-- State of the in-flight registry of the GameService variant in
src/unnamed/part_001: pendingRequests maps a cache key to the promise it
stores (promises are named by numeric handles); nextId supplies fresh
handles; opStarts counts how many fetchOperation executions were started;
llmCalls counts invocations of the generation collaborator (fetchStory,
reached only when the tiered cache misses inside the operation). -/
structure RegState where
  pending : List (String × Nat)
  nextId : Nat
  opStarts : Nat
  llmCalls : Nat

/-- Initial registry state: empty pendingRequests map. -/
def RegState.init : RegState := ⟨[], 0, 0, 0⟩

/-- The deduplication steps (2)-(4) of GameService.continueStory
(src/unnamed/part_001 lines 133-169), atomic on the event loop: if
pendingRequests has the key, return the stored promise handle and change
nothing; otherwise start fetchOperation (one new operation execution,
which invokes the generation collaborator exactly once when the tiered
cache misses, recorded by the cacheMiss flag) and store its promise under
the key. The first await inside fetchOperation suspends it before its
finally clause can run, so the map update is atomic with the start. -/
def joinOrStart (cacheMiss : Bool) (k : String) (s : RegState) : Nat × RegState :=
  match jsLookup s.pending k with
  | some h => (h, s)
  | none =>
    (s.nextId,
     { pending := s.pending ++ [(k, s.nextId)],
       nextId := s.nextId + 1,
       opStarts := s.opStarts + 1,
       llmCalls := s.llmCalls + (if cacheMiss then 1 else 0) })

/-- Settlement of the in-flight operation for key k with outcome o (ok on
success, error on failure): the finally clause of fetchOperation
(src/unnamed/part_001 lines 160-162) deletes the pendingRequests entry
before the promise settles, so the delivered outcome (second component)
is produced together with the post-removal state (first component); every
caller holding the promise handle observes this same outcome. -/
def settleDeliver (k : String) (o : Except String JVal) (s : RegState) :
    RegState × Except String JVal :=
  ({ s with pending := eraseKey s.pending k }, o)

/-- Events of one process: a continueStory dedup step for a key (with the
given tiered-cache outcome) or the settlement of the operation for a key.
These are the only mutations of pendingRequests in the source. -/
inductive RegEvt where
  | join : Bool → String → RegEvt
  | settle : String → RegEvt

/-- One event-loop step acting on the registry state. -/
def stepEvt (s : RegState) (e : RegEvt) : RegState :=
  match e with
  | .join miss k => (joinOrStart miss k s).2
  | .settle k => (settleDeliver k (.ok .null) s).1

/-- Registry state reached from the initial state by a list of events. -/
def runEvts (evts : List RegEvt) : RegState :=
  evts.foldl stepEvt RegState.init

/-- AVG_ENTRY_SIZE heuristic of the cache server, src/unnamed/part_003
line 46: 50 KB assumed per entry. -/
def AVG_ENTRY_SIZE : Nat := 50 * 1024

/-- MAX_CACHE_SIZE_BYTES of the cache server, src/unnamed/part_003 line 7:
1 GB. -/
def MAX_CACHE_SIZE_BYTES : Nat := 1024 * 1024 * 1024

/-- checkSizeLimit of the cache server (src/unnamed/part_003 lines 40-55):
estimate the size as entry count times AVG_ENTRY_SIZE; when the estimate
exceeds MAX_CACHE_SIZE_BYTES, delete the first Math.ceil(size * 0.1) keys
in Map insertion order. For every entry count reachable here the
double-precision expression Math.ceil(n * 0.1) equals the exact ceiling
of n / 10, written (n + 9) / 10 in natural division. -/
def checkSizeLimit (cache : List (String × JVal)) : List (String × JVal) :=
  let estimatedSize := cache.length * AVG_ENTRY_SIZE
  if MAX_CACHE_SIZE_BYTES < estimatedSize then
    cache.drop ((cache.length + 9) / 10)
  else cache

/-- An HTTP response of the cache API: status code and JSON body. -/
structure HttpResponse where
  status : Nat
  body : JVal

/-- GET /api/cache handler (src/unnamed/part_003 lines 90-99): key read
from the query string (none when the parameter is missing, in which case
cache.has(null) is false); 200 with the entry on a hit, 404 with the Not
found error body on a miss. The store is returned unchanged: the handler
never mutates it. -/
def handleGet (cache : List (String × JVal)) (k : Option String) :
    HttpResponse × List (String × JVal) :=
  match k with
  | some key =>
    match jsLookup cache key with
    | some v =>
      (⟨200, .obj [("success", .bool true), ("data", v)]⟩, cache)
    | none =>
      (⟨404, .obj [("success", .bool false), ("error", .str "Not found")]⟩, cache)
  | none =>
    (⟨404, .obj [("success", .bool false), ("error", .str "Not found")]⟩, cache)

/-- Parsed POST body as the handler destructures it: none when JSON.parse
of the request body throws (its message is the parameter parseErrMsg of
handlePost), otherwise the optional key and data fields. The client only
ever sends string keys. -/
def PostBody : Type := Option (Option String × Option JVal)

/-- Truthiness check key && data of the POST handler: an absent field is
undefined (falsy); a key string is truthy when nonempty; data is truthy
per JavaScript coercion. -/
def postPayloadOk (body : Option String × Option JVal) : Bool :=
  (match body.1 with
   | some k => decide (k ≠ "")
   | none => false) &&
  (match body.2 with
   | some d => isTruthy d
   | none => false)

/-- POST /api/cache handler (src/unnamed/part_003 lines 100-121): on a
well-formed payload, delete-then-insert the entry (refreshing its position
to most recently inserted), run checkSizeLimit, and answer 200 with
success true; otherwise (parse failure, or missing/falsy key or data)
throw, caught as a 400 with success false and the error message, leaving
the store unchanged. -/
def handlePost (parseErrMsg : String) (cache : List (String × JVal))
    (body : PostBody) : HttpResponse × List (String × JVal) :=
  match body with
  | none =>
    (⟨400, .obj [("success", .bool false), ("error", .str parseErrMsg)]⟩, cache)
  | some b =>
    if postPayloadOk b then
      match b with
      | (some k, some d) =>
        let cache1 := eraseKey cache k
        let cache2 := cache1 ++ [(k, d)]
        (⟨200, .obj [("success", .bool true)]⟩, checkSizeLimit cache2)
      | _ =>
        (⟨400, .obj [("success", .bool false), ("error", .str "Invalid payload")]⟩, cache)
    else
      (⟨400, .obj [("success", .bool false), ("error", .str "Invalid payload")]⟩, cache)

theorem eraseKey_eq_self_of_not_mem {α : Type} (m : List (String × α)) (k : String)
    (h : k ∉ keysOf m) : eraseKey m k = m := by
  induction m with
  | nil => rfl
  | cons p rest ih =>
    simp only [keysOf, List.map_cons, List.mem_cons, not_or] at h
    have h1 : eraseKey (p :: rest) k = p :: eraseKey rest k := by
      simp [eraseKey, List.filter_cons, Ne.symm h.1]
    rw [h1, ih (by simpa [keysOf] using h.2)]

theorem jsUpsert_append_of_not_mem {α : Type} (m : List (String × α)) (k : String) (v : α)
    (h : k ∉ keysOf m) : jsUpsert m k v = m ++ [(k, v)] := by
  have hk : hasKey m k = false := by
    unfold hasKey
    rw [(jsLookup_none_iff_not_mem m k).mpr h]
    rfl
  simp [jsUpsert, hk]

theorem saveToLocalStorage_length_le (canWrite : List (String × JVal) → Bool)
    (store : List (String × JVal)) (k : String) (v : JVal)
    (h : store.length ≤ MAX_LOCAL_ITEMS) :
    (saveToLocalStorage canWrite store k v).length ≤ MAX_LOCAL_ITEMS := by
  unfold saveToLocalStorage
  by_cases hw : canWrite (jsUpsert (evictIfFull store) k v) = true
  · simp only [hw, if_true]
    have hev : (evictIfFull store).length + 1 ≤ MAX_LOCAL_ITEMS := by
      unfold evictIfFull
      by_cases hfull : MAX_LOCAL_ITEMS ≤ store.length
      · simp only [hfull, if_true]
        match hs : store with
        | [] => simp [MAX_LOCAL_ITEMS] at hfull
        | p :: rest =>
          simp only [List.head?_cons]
          have h1 : eraseKey (p :: rest) p.1 = eraseKey rest p.1 := by
            simp [eraseKey, List.filter_cons]
          rw [h1]
          have h2 := eraseKey_length_le rest p.1
          subst hs
          simp only [List.length_cons] at h hfull
          omega
      · simp only [hfull, if_false]
        omega
    have := jsUpsert_length_le (evictIfFull store) k v
    omega
  · simp only [Bool.not_eq_true] at hw
    simp [hw, MAX_LOCAL_ITEMS]

/-- C4: Key derivation is invariant under reordering of the inventory:
for every hash function, history, choice, and inventories that are
permutations of each other, generateKey produces the same key, because
the inventory is sorted before serialization and hashing. -/
theorem generateKey_perm_invariant (hash : String → String)
    (history : List ChatHistoryItem) (choice : String)
    (inv1 inv2 : List String) (h : inv1.Perm inv2) :
    generateKey hash history choice inv1 = generateKey hash history choice inv2 := by
  unfold generateKey
  have hsort : inv1.insertionSort (· ≤ ·) = inv2.insertionSort (· ≤ ·) :=
    List.eq_of_perm_of_sorted
      ((List.perm_insertionSort _ inv1).trans (h.trans (List.perm_insertionSort _ inv2).symm))
      (List.sorted_insertionSort _ inv1)
      (List.sorted_insertionSort _ inv2)
  rw [hsort]

/-- Witness for C4 at a concrete permuted inventory. -/
theorem generateKey_perm_invariant_witness :
    (["烧符", "离开"] : List String).Perm ["离开", "烧符"] ∧
    generateKey (fun s => s) [ChatHistoryItem.mk "user" "hi"] "继续" ["烧符", "离开"] =
      generateKey (fun s => s) [ChatHistoryItem.mk "user" "hi"] "继续" ["离开", "烧符"] :=
  ⟨by decide, generateKey_perm_invariant (fun s => s) [ChatHistoryItem.mk "user" "hi"] "继续"
      ["烧符", "离开"] ["离开", "烧符"] (by decide)⟩

/-- C2: setStory(k, v) immediately followed by getStory(k) returns v
unchanged through the L1 store: when the localStorage write succeeds, the
store returned by setStory yields the stored encoding of v on the next
getStory, for every tier-enablement flag and every L2 state. -/
theorem setStory_getStory_roundtrip (canWrite : List (String × JVal) → Bool)
    (e1 e2 l2fail : Bool) (l2 : FetchOutcome) (store : List (String × JVal))
    (k : String) (v : StoryResponse)
    (hw : canWrite (jsUpsert (evictIfFull store) k (encodeStory v)) = true) :
    setStory canWrite e1 l2fail store k v =
      .ok (jsUpsert (evictIfFull store) k (encodeStory v), e1) ∧
    getStory canWrite e2 l2 (jsUpsert (evictIfFull store) k (encodeStory v)) k =
      .ok (some (encodeStory v), jsUpsert (evictIfFull store) k (encodeStory v)) := by
  constructor
  · simp [setStory, saveToLocalStorage, hw]
  · have hl : getFromLocalStorage (jsUpsert (evictIfFull store) k (encodeStory v)) k =
        some (encodeStory v) := by
      unfold getFromLocalStorage
      rw [jsLookup_jsUpsert_self]
      simp [isTruthy_encodeStory]
    simp [getStory, hl]

/-- Witness for C2 at a concrete store and story payload. -/
theorem setStory_getStory_roundtrip_witness :
    (fun _ : List (String × JVal) => true)
        (jsUpsert (evictIfFull []) "k1"
          (encodeStory (StoryResponse.mk "夜色" ["推门"] "mist" false false none "eerie"))) = true ∧
    setStory (fun _ => true) true false [] "k1"
        (StoryResponse.mk "夜色" ["推门"] "mist" false false none "eerie") =
      .ok (jsUpsert (evictIfFull []) "k1"
        (encodeStory (StoryResponse.mk "夜色" ["推门"] "mist" false false none "eerie")), true) :=
  ⟨rfl, (setStory_getStory_roundtrip (fun _ => true) true true false .netFail [] "k1"
      (StoryResponse.mk "夜色" ["推门"] "mist" false false none "eerie") rfl).1⟩

/-- C3: L2 failures never escape the tiered cache: with the shared tier
enabled but every transport operation failing, getStory returns the L1
entry when present and a clean miss otherwise, always as a normal (ok)
return; and setStory still completes normally having written L1,
independently of the background POST failing. -/
theorem l2_failure_isolated :
    (∀ (canWrite : List (String × JVal) → Bool) store k v,
      getFromLocalStorage store k = some v →
      getStory canWrite true .netFail store k = .ok (some v, store)) ∧
    (∀ (canWrite : List (String × JVal) → Bool) store k,
      getFromLocalStorage store k = none →
      getStory canWrite true .netFail store k = .ok (none, store)) ∧
    (∀ (canWrite : List (String × JVal) → Bool) (l2fail : Bool) store k v,
      setStory canWrite true l2fail store k v =
        .ok (saveToLocalStorage canWrite store k (encodeStory v), true)) ∧
    (∀ (canWrite : List (String × JVal) → Bool) (l2fail : Bool) store k v,
      canWrite (jsUpsert (evictIfFull store) k (encodeStory v)) = true →
      jsLookup (saveToLocalStorage canWrite store k (encodeStory v)) k =
        some (encodeStory v)) := by
  refine ⟨?_, ?_, ?_, ?_⟩
  · intro canWrite store k v h
    simp [getStory, h]
  · intro canWrite store k h
    simp [getStory, h, fetchFromServer]
  · intro canWrite l2fail store k v
    rfl
  · intro canWrite l2fail store k v hw
    unfold saveToLocalStorage
    simp only [hw, if_true]
    exact jsLookup_jsUpsert_self _ _ _

/-- Witness for C3 at a concrete L1 store with a present entry and an
absent one, under an unreachable L2. -/
theorem l2_failure_isolated_witness :
    getFromLocalStorage [("k1", JVal.num 7)] "k1" = some (JVal.num 7) ∧
    getStory (fun _ => true) true .netFail [("k1", JVal.num 7)] "k1" =
      .ok (some (JVal.num 7), [("k1", JVal.num 7)]) ∧
    getStory (fun _ => true) true .netFail [("k1", JVal.num 7)] "k2" =
      .ok (none, [("k1", JVal.num 7)]) :=
  ⟨rfl, l2_failure_isolated.1 (fun _ => true) [("k1", JVal.num 7)] "k1" (JVal.num 7) rfl,
    l2_failure_isolated.2.1 (fun _ => true) [("k1", JVal.num 7)] "k2" rfl⟩

/-- C10: A falsy stored value is indistinguishable from a miss: a falsy L1
value makes getFromLocalStorage return null, a falsy data field makes
fetchFromServer return null, and getStory consequently reports a miss for
such an entry (here with the remote tier unreachable or disabled). -/
theorem falsy_value_is_miss :
    (∀ store k v, jsLookup store k = some v → isTruthy v = false →
      getFromLocalStorage store k = none) ∧
    (∀ body d, jsLookup body "data" = some d → isTruthy d = false →
      fetchFromServer (.ok body) = .ok none) ∧
    (∀ (canWrite : List (String × JVal) → Bool) (isEnabled : Bool) store k v,
      jsLookup store k = some v → isTruthy v = false →
      getStory canWrite isEnabled .netFail store k = .ok (none, store)) := by
  refine ⟨?_, ?_, ?_⟩
  · intro store k v h hf
    simp [getFromLocalStorage, h, hf]
  · intro body d h hf
    simp [fetchFromServer, h, hf]
  · intro canWrite isEnabled store k v h hf
    have hl : getFromLocalStorage store k = none := by
      simp [getFromLocalStorage, h, hf]
    cases isEnabled <;> simp [getStory, hl, fetchFromServer]

/-- Witness for C10 at the empty string, a falsy stored value. -/
theorem falsy_value_is_miss_witness :
    jsLookup [("k1", JVal.str "")] "k1" = some (JVal.str "") ∧
    isTruthy (JVal.str "") = false ∧
    getFromLocalStorage [("k1", JVal.str "")] "k1" = none ∧
    getStory (fun _ => true) true .netFail [("k1", JVal.str "")] "k1" =
      .ok (none, [("k1", JVal.str "")]) :=
  ⟨rfl, rfl, falsy_value_is_miss.1 [("k1", JVal.str "")] "k1" (JVal.str "") rfl rfl,
    falsy_value_is_miss.2.2 (fun _ => true) true [("k1", JVal.str "")] "k1" (JVal.str "") rfl rfl⟩

/-- C6: The L1 store is bounded: any sequence of saveToLocalStorage
inserts keeps the entry count at or below MAX_LOCAL_ITEMS (in particular
starting from the empty store), and an insert of a fresh key into a full
store evicts the oldest-inserted entry first: the result is exactly the
remaining entries in order with the new entry appended. -/
theorem l1_bounded_and_evicts_oldest :
    (∀ (canWrite : List (String × JVal) → Bool) (ops : List (String × JVal))
        (store : List (String × JVal)), store.length ≤ MAX_LOCAL_ITEMS →
      (ops.foldl (fun st p => saveToLocalStorage canWrite st p.1 p.2) store).length ≤
        MAX_LOCAL_ITEMS) ∧
    (∀ (canWrite : List (String × JVal) → Bool) (k0 : String) (v0 : JVal)
        (rest : List (String × JVal)) (k : String) (v : JVal),
      MAX_LOCAL_ITEMS ≤ ((k0, v0) :: rest).length →
      (keysOf ((k0, v0) :: rest)).Nodup →
      k ∉ keysOf ((k0, v0) :: rest) →
      canWrite (jsUpsert (evictIfFull ((k0, v0) :: rest)) k v) = true →
      saveToLocalStorage canWrite ((k0, v0) :: rest) k v = rest ++ [(k, v)]) := by
  constructor
  · intro canWrite ops
    induction ops with
    | nil => intro store h; simpa using h
    | cons p rest ih =>
      intro store h
      simpa using ih _ (saveToLocalStorage_length_le canWrite store p.1 p.2 h)
  · intro canWrite k0 v0 rest k v hfull hnd hk hw
    have hev : evictIfFull ((k0, v0) :: rest) = rest := by
      unfold evictIfFull
      simp only [hfull, if_true, List.head?_cons]
      have h1 : eraseKey ((k0, v0) :: rest) k0 = eraseKey rest k0 := by
        simp [eraseKey, List.filter_cons]
      rw [h1]
      apply eraseKey_eq_self_of_not_mem
      simp only [keysOf, List.map_cons, List.nodup_cons] at hnd
      exact hnd.1
    have hknotin : k ∉ keysOf rest := by
      simp only [keysOf, List.map_cons, List.mem_cons, not_or] at hk
      exact hk.2
    unfold saveToLocalStorage
    rw [hev] at hw ⊢
    rw [jsUpsert_append_of_not_mem rest k v hknotin] at hw ⊢
    simp [hw]

/-- Witness for C6: a one-entry bound instance and a concrete eviction of
the oldest entry from a full store of 50 distinct keys (key0 followed by
k0 .. k48 in insertion order). -/
theorem l1_bounded_and_evicts_oldest_witness :
    (MAX_LOCAL_ITEMS ≤ (("key0", JVal.num 0) ::
        (List.range 49).map (fun i => (String.append "k" (toString i), JVal.num i))).length ∧
      saveToLocalStorage (fun _ => true)
        (("key0", JVal.num 0) ::
          (List.range 49).map (fun i => (String.append "k" (toString i), JVal.num i)))
        "fresh" (JVal.num 99) =
      ((List.range 49).map (fun i => (String.append "k" (toString i), JVal.num i))) ++
        [("fresh", JVal.num 99)]) ∧
    ([(("a", JVal.num 1) : String × JVal)].foldl
        (fun st p => saveToLocalStorage (fun _ => true) st p.1 p.2) []).length ≤
      MAX_LOCAL_ITEMS := by
  refine ⟨⟨by decide, ?_⟩,
    l1_bounded_and_evicts_oldest.1 (fun _ => true) [("a", JVal.num 1)] [] (by decide)⟩
  exact l1_bounded_and_evicts_oldest.2 (fun _ => true) "key0" (JVal.num 0)
    ((List.range 49).map (fun i => (String.append "k" (toString i), JVal.num i)))
    "fresh" (JVal.num 99) (by decide) (by decide) (by decide) rfl

/-- C7: On a successful remote-store PUT, the entry is upserted by
delete-then-insert so it lands in the most-recently-inserted position, and
the capacity check then runs: when the count-times-50KB estimate exceeds
the 1 GB budget the oldest ceil(10%) of keys by insertion order are
dropped in one pass, otherwise the store is left as upserted. -/
theorem remote_put_refresh_and_evict (parseErrMsg : String)
    (cache : List (String × JVal)) (k : String) (d : JVal)
    (hk : k ≠ "") (hd : isTruthy d = true) :
    (handlePost parseErrMsg cache (some (some k, some d))).1 =
      ⟨200, .obj [("success", .bool true)]⟩ ∧
    jsLookup (eraseKey cache k) k = none ∧
    (eraseKey cache k ++ [(k, d)]).getLast? = some (k, d) ∧
    ((eraseKey cache k ++ [(k, d)]).length * AVG_ENTRY_SIZE ≤ MAX_CACHE_SIZE_BYTES →
      (handlePost parseErrMsg cache (some (some k, some d))).2 =
        eraseKey cache k ++ [(k, d)]) ∧
    (MAX_CACHE_SIZE_BYTES < (eraseKey cache k ++ [(k, d)]).length * AVG_ENTRY_SIZE →
      (handlePost parseErrMsg cache (some (some k, some d))).2 =
        (eraseKey cache k ++ [(k, d)]).drop
          (((eraseKey cache k ++ [(k, d)]).length + 9) / 10) ∧
      (handlePost parseErrMsg cache (some (some k, some d))).2.length +
          ((eraseKey cache k ++ [(k, d)]).length + 9) / 10 =
        (eraseKey cache k ++ [(k, d)]).length) := by
  have hok : postPayloadOk (some k, some d) = true := by
    simp [postPayloadOk, hk, hd]
  refine ⟨?_, jsLookup_eraseKey_self cache k, ?_, ?_, ?_⟩
  · simp [handlePost, hok]
  · simp
  · intro hle
    simp only [handlePost, hok, if_true]
    unfold checkSizeLimit
    simp only [not_lt.mpr hle, if_false]
  · intro hgt
    have hres : (handlePost parseErrMsg cache (some (some k, some d))).2 =
        (eraseKey cache k ++ [(k, d)]).drop
          (((eraseKey cache k ++ [(k, d)]).length + 9) / 10) := by
      simp only [handlePost, hok, if_true]
      unfold checkSizeLimit
      simp only [hgt, if_true]
    refine ⟨hres, ?_⟩
    rw [hres, List.length_drop]
    have hlen : 1 ≤ (eraseKey cache k ++ [(k, d)]).length := by
      simp
    omega

/-- Witness for C7 at a concrete store and payload. -/
theorem remote_put_refresh_and_evict_witness :
    ("k1" : String) ≠ "" ∧ isTruthy (JVal.num 1) = true ∧
    (handlePost "parse error" [("k0", JVal.num 0)] (some (some "k1", some (JVal.num 1)))).1 =
      ⟨200, .obj [("success", .bool true)]⟩ :=
  ⟨by decide, rfl,
    (remote_put_refresh_and_evict "parse error" [("k0", JVal.num 0)] "k1" (JVal.num 1)
      (by decide) rfl).1⟩

/-- C8: The remote cache wire protocol: GET answers 200 with success true
and the entry exactly on a hit and 404 with the Not found body otherwise
(including a missing key parameter), never changing the store; POST
answers 200 with success true exactly on a well-formed payload (truthy key
and data) and 400 with success false and an error message on a malformed
one (parse failure, or missing key or data), leaving the store unchanged
in the malformed case. -/
theorem wire_protocol :
    (∀ (cache : List (String × JVal)) key v, jsLookup cache key = some v →
      handleGet cache (some key) =
        (⟨200, .obj [("success", .bool true), ("data", v)]⟩, cache)) ∧
    (∀ (cache : List (String × JVal)) key, jsLookup cache key = none →
      handleGet cache (some key) =
        (⟨404, .obj [("success", .bool false), ("error", .str "Not found")]⟩, cache)) ∧
    (∀ cache : List (String × JVal), handleGet cache none =
      (⟨404, .obj [("success", .bool false), ("error", .str "Not found")]⟩, cache)) ∧
    (∀ (cache : List (String × JVal)) k, (handleGet cache k).2 = cache) ∧
    (∀ (msg : String) (cache : List (String × JVal)) b, postPayloadOk b = true →
      (handlePost msg cache (some b)).1 = ⟨200, .obj [("success", .bool true)]⟩) ∧
    (∀ (msg : String) (cache : List (String × JVal)) b, postPayloadOk b = false →
      handlePost msg cache (some b) =
        (⟨400, .obj [("success", .bool false), ("error", .str "Invalid payload")]⟩, cache)) ∧
    (∀ (msg : String) (cache : List (String × JVal)), handlePost msg cache none =
      (⟨400, .obj [("success", .bool false), ("error", .str msg)]⟩, cache)) := by
  refine ⟨?_, ?_, ?_, ?_, ?_, ?_, ?_⟩
  · intro cache key v h
    simp [handleGet, h]
  · intro cache key h
    simp [handleGet, h]
  · intro cache
    rfl
  · intro cache k
    cases k with
    | none => rfl
    | some key =>
      cases hj : jsLookup cache key with
      | some v => simp [handleGet, hj]
      | none => simp [handleGet, hj]
  · intro msg cache b h
    match b with
    | (some k, some d) => simp [handlePost, h]
    | (some k, none) => simp [postPayloadOk] at h
    | (none, _) => simp [postPayloadOk] at h
  · intro msg cache b h
    match b with
    | (some k, some d) => simp [handlePost, h]
    | (some k, none) => simp [handlePost, postPayloadOk]
    | (none, d) => simp [handlePost, postPayloadOk]
  · intro msg cache
    rfl

/-- Witness for C8 at a concrete store: a hit, a miss, and a malformed
POST with a falsy data field. -/
theorem wire_protocol_witness :
    jsLookup [("k1", JVal.num 1)] "k1" = some (JVal.num 1) ∧
    handleGet [("k1", JVal.num 1)] (some "k1") =
      (⟨200, .obj [("success", .bool true), ("data", JVal.num 1)]⟩, [("k1", JVal.num 1)]) ∧
    handleGet [("k1", JVal.num 1)] (some "k2") =
      (⟨404, .obj [("success", .bool false), ("error", .str "Not found")]⟩,
        [("k1", JVal.num 1)]) ∧
    handlePost "m" [] (some (some "k1", some (JVal.num 0))) =
      (⟨400, .obj [("success", .bool false), ("error", .str "Invalid payload")]⟩, []) :=
  ⟨rfl, wire_protocol.1 [("k1", JVal.num 1)] "k1" (JVal.num 1) rfl,
    wire_protocol.2.1 [("k1", JVal.num 1)] "k2" rfl,
    wire_protocol.2.2.2.2.2.1 "m" [] (some "k1", some (JVal.num 0)) rfl⟩

/-- C9: At a write that fails for capacity, the source saveToLocalStorage
clears the affected store and drops the write with no retry, so the new
entry is absent afterwards, while the recovery the spec describes (clear,
then retry the write once) would leave exactly the new entry: evaluated
at a store of two entries with a quota admitting one entry. -/
theorem quota_recovery_has_no_retry :
    saveToLocalStorage (fun s => decide (s.length ≤ 1))
      [("a", JVal.num 1), ("b", JVal.num 2)] "c" (JVal.num 3) = [] ∧
    saveToLocalStorageSpecRetry (fun s => decide (s.length ≤ 1))
      [("a", JVal.num 1), ("b", JVal.num 2)] "c" (JVal.num 3) = [("c", JVal.num 3)] ∧
    jsLookup (saveToLocalStorage (fun s => decide (s.length ≤ 1))
      [("a", JVal.num 1), ("b", JVal.num 2)] "c" (JVal.num 3)) "c" = none :=
  ⟨rfl, rfl, rfl⟩

theorem nodup_keys_stepEvt (s : RegState) (e : RegEvt)
    (h : (keysOf s.pending).Nodup) : (keysOf (stepEvt s e).pending).Nodup := by
  cases e with
  | join miss k =>
    simp only [stepEvt]
    cases hj : jsLookup s.pending k with
    | some v => simpa [joinOrStart, hj] using h
    | none =>
      have hk : k ∉ keysOf s.pending := (jsLookup_none_iff_not_mem _ _).mp hj
      have hkeys : keysOf ((joinOrStart miss k s).2).pending =
          keysOf s.pending ++ [k] := by
        simp [joinOrStart, hj, keysOf]
      rw [hkeys]
      exact ((List.perm_append_singleton k _).nodup_iff).mpr (List.nodup_cons.mpr ⟨hk, h⟩)
  | settle k =>
    have hsub : List.Sublist (keysOf ((settleDeliver k (.ok .null) s).1).pending)
        (keysOf s.pending) := by
      simp only [settleDeliver, keysOf, eraseKey]
      exact (List.filter_sublist _).map _
    exact List.Nodup.sublist hsub h

theorem nodup_keys_runEvts (evts : List RegEvt) :
    (keysOf (runEvts evts).pending).Nodup := by
  suffices h : ∀ s : RegState, (keysOf s.pending).Nodup →
      (keysOf (evts.foldl stepEvt s).pending).Nodup by
    exact h RegState.init (by simp [RegState.init, keysOf])
  induction evts with
  | nil => intro s hs; simpa using hs
  | cons e rest ih =>
    intro s hs
    exact ih _ (nodup_keys_stepEvt s e hs)

/-- C1: In-flight deduplication: in every state reachable by join and
settle events, at most one pendingRequests entry exists per key; a
continueStory call finding a PendingOperation for its key returns the
stored promise handle without starting anything and without touching the
state; and two calls with the same fresh key issued before either settles
share one handle and cause exactly one operation start and exactly one
invocation of the generation collaborator (on a tiered-cache miss). -/
theorem inflight_dedup_invariant :
    (∀ (evts : List RegEvt) (k : String),
      (keysOf (runEvts evts).pending).count k ≤ 1) ∧
    (∀ (s : RegState) (k : String) (h : Nat) (miss : Bool),
      jsLookup s.pending k = some h → joinOrStart miss k s = (h, s)) ∧
    (∀ (s : RegState) (k : String), jsLookup s.pending k = none →
      (joinOrStart true k ((joinOrStart true k s).2)).1 = (joinOrStart true k s).1 ∧
      (joinOrStart true k ((joinOrStart true k s).2)).2 = (joinOrStart true k s).2 ∧
      ((joinOrStart true k s).2).llmCalls = s.llmCalls + 1 ∧
      ((joinOrStart true k s).2).opStarts = s.opStarts + 1) := by
  refine ⟨?_, ?_, ?_⟩
  · intro evts k
    exact List.nodup_iff_count_le_one.mp (nodup_keys_runEvts evts) k
  · intro s k h miss hj
    simp [joinOrStart, hj]
  · intro s k hj
    have h1 : joinOrStart true k s =
        (s.nextId,
         { pending := s.pending ++ [(k, s.nextId)], nextId := s.nextId + 1,
           opStarts := s.opStarts + 1, llmCalls := s.llmCalls + 1 }) := by
      simp [joinOrStart, hj]
    have hlook : jsLookup (s.pending ++ [(k, s.nextId)]) k = some s.nextId := by
      rw [jsLookup_append_right _ _ _ hj]
      simp [jsLookup]
    have h2 : joinOrStart true k ((joinOrStart true k s).2) =
        (s.nextId, (joinOrStart true k s).2) := by
      rw [h1]
      simp [joinOrStart, hlook]
    refine ⟨?_, ?_, ?_, ?_⟩
    · rw [h2, h1]
    · rw [h2]
    · rw [h1]
    · rw [h1]

/-- Witness for C1: two joins on a fresh key from the initial state share
the handle and record exactly one operation start and one collaborator
invocation. -/
theorem inflight_dedup_invariant_witness :
    jsLookup RegState.init.pending "k1" = none ∧
    ((joinOrStart true "k1" ((joinOrStart true "k1" RegState.init).2)).1 =
        (joinOrStart true "k1" RegState.init).1 ∧
      (joinOrStart true "k1" ((joinOrStart true "k1" RegState.init).2)).2 =
        (joinOrStart true "k1" RegState.init).2 ∧
      ((joinOrStart true "k1" RegState.init).2).llmCalls = RegState.init.llmCalls + 1 ∧
      ((joinOrStart true "k1" RegState.init).2).opStarts = RegState.init.opStarts + 1) :=
  ⟨rfl, inflight_dedup_invariant.2.2 RegState.init "k1" rfl⟩

/-- C5: Settlement removes the PendingOperation unconditionally, for a
success outcome and for a failure outcome alike; the outcome, failures
included, is delivered exactly as produced and only together with the
post-removal state; and a subsequent call with the same key after
settlement starts a fresh execution, so retry is possible. -/
theorem settle_always_removes :
    (∀ (k : String) (o : Except String JVal) (s : RegState),
      jsLookup ((settleDeliver k o s).1).pending k = none) ∧
    (∀ (k : String) (o : Except String JVal) (s : RegState),
      (settleDeliver k o s).2 = o) ∧
    (∀ (k : String) (o : Except String JVal) (s : RegState),
      (joinOrStart true k ((settleDeliver k o s).1)).1 =
        ((settleDeliver k o s).1).nextId ∧
      ((joinOrStart true k ((settleDeliver k o s).1)).2).opStarts =
        ((settleDeliver k o s).1).opStarts + 1) := by
  refine ⟨?_, ?_, ?_⟩
  · intro k o s
    exact jsLookup_eraseKey_self _ _
  · intro k o s
    rfl
  · intro k o s
    have hlook : jsLookup ((settleDeliver k o s).1).pending k = none :=
      jsLookup_eraseKey_self _ _
    constructor
    · simp [joinOrStart, hlook]
    · simp [joinOrStart, hlook]

end Kongbu
